import Mathlib

/-!
Shallow embedding of the `autopkg` auto-update orchestrator (Rust sources under
`src/`): the version comparator and GitHub fetcher (`src/fetcher/github.rs`,
`src/fetcher/mod.rs`), the Debian installer (`src/installer/deb.rs`,
`src/installer/mod.rs`), and the per-application / batch orchestration
(`src/main.rs`).

External collaborators (the filesystem, the network client, subprocess
execution, the `glob` pattern compiler and the temp directory) are modelled as
fields of an explicit `Env` record; every function of the repository that the
claims mention is translated directly from the Rust source, with observable
side effects (subprocess invocations, fetch/download/install calls) recorded
in an explicit event trace.
-/

/-! ## Character and list utilities mirroring the Rust standard library -/

/-- Character class of the version regex `[0-9A-Za-z.\-+]` in
`GitHubFetcher::normalize_version` (ASCII alphanumeric, dot, dash, plus). -/
def isVersChar (c : Char) : Bool :=
  c.isAlphanum || c == '.' || c == '-' || c == '+'

/-- Rust `str::split('.')`: splits a character list on `'.'`, keeping empty
segments (so `""` yields `[""]` and `"1..2"` yields `["1", "", "2"]`). -/
def splitDots : List Char → List (List Char)
  | [] => [[]]
  | c :: cs =>
    if c == '.' then [] :: splitDots cs
    else
      match splitDots cs with
      | [] => [[c]]
      | s :: ss => (c :: s) :: ss

/-- Rust `u64::from_str`: an optional leading `'+'`, then one or more ASCII
digits, and the value must fit in 64 bits; anything else fails (`None`). -/
def parseU64 (cs : List Char) : Option Nat :=
  let ds := match cs with
    | '+' :: r => r
    | _ => cs
  if ds.isEmpty then none
  else if ds.all Char.isDigit then
    let n := ds.foldl (fun a c => a * 10 + (c.toNat - 48)) 0
    if n < 2 ^ 64 then some n else none
  else none

/-- Rust `str::split_once(c)`: splits at the first occurrence of `c`,
returning the parts before and after it, or `none` when `c` is absent. -/
def splitOnceChars (c : Char) : List Char → Option (List Char × List Char)
  | [] => none
  | x :: xs =>
    if x == c then some ([], xs)
    else
      match splitOnceChars c xs with
      | none => none
      | some (a, b) => some (x :: a, b)

/-- `String` form of `splitOnceChars`, mirroring `str::split_once`. -/
def splitOnce (s : String) (c : Char) : Option (String × String) :=
  match splitOnceChars c s.data with
  | none => none
  | some (a, b) => some (String.mk a, String.mk b)

/-- Rust `str::trim` on a character list (whitespace stripped on both ends). -/
def trimChars (cs : List Char) : List Char :=
  ((cs.dropWhile Char.isWhitespace).reverse.dropWhile Char.isWhitespace).reverse

/-! ## Version comparison (`GitHubFetcher` in `src/fetcher/github.rs`) -/

namespace GitHubFetcher

/-- The scan of the unanchored Rust regex `v?(?P<version>[0-9][0-9A-Za-z.\-+]*)`
over the tag's characters: at each position, a match requires either a digit,
or a `'v'` immediately followed by a digit (the `v` is outside the capture
group); the capture is the digit followed by the longest run of `isVersChar`
characters.  Returns the first (leftmost) capture, or `none` if no position
matches. -/
def findCapture : List Char → Option (List Char)
  | [] => none
  | c :: rest =>
    if c.isDigit then some (c :: rest.takeWhile isVersChar)
    else if c = 'v' then
      match rest with
      | [] => none
      | d :: rest2 =>
        if d.isDigit then some (d :: rest2.takeWhile isVersChar)
        else findCapture rest
    else findCapture rest

/-- `GitHubFetcher::normalize_version`: the capture of the first regex match,
or the input tag unchanged when the regex does not match anywhere. -/
def normalize_version (tag : String) : String :=
  match findCapture tag.data with
  | some cs => String.mk cs
  | none => tag

/-- The local `parse` closure of `GitHubFetcher::is_newer`:
`v.split('.').filter_map(|s| s.parse::<u64>().ok()).collect()`. -/
def parse (v : String) : List Nat :=
  (splitDots v.data).filterMap parseU64

/-- Rust `Vec::resize(max_len, 0)` after the parse: right-pad with zeros up to
length `n` (never truncates here because `n` is the max of both lengths). -/
def padTo (xs : List Nat) (n : Nat) : List Nat :=
  xs ++ List.replicate (n - xs.length) 0

/-- The comparison loop of `GitHubFetcher::is_newer` over the two equal-length
part vectors: the first differing component decides; all-equal gives `false`. -/
def cmpParts : List Nat → List Nat → Bool
  | l :: ls, r :: rs =>
    if r > l then true
    else if r < l then false
    else cmpParts ls rs
  | _, _ => false

/-- `GitHubFetcher::is_newer(local, remote)`. -/
def is_newer (l r : String) : Bool :=
  let lp := parse l
  let rp := parse r
  let n := max lp.length rp.length
  cmpParts (padTo lp n) (padTo rp n)

end GitHubFetcher

/-! ## Configuration data model (`src/config.rs`) -/

/-- `FetcherConfig`. -/
structure FetcherConfig where
  type : String
  repo : Option String
  file_pattern : Option String
deriving DecidableEq

/-- `InstallerConfig` (both wire shapes normalize to this one struct). -/
structure InstallerConfig where
  type : String
deriving DecidableEq

/-- `ApplicationConfig`. -/
structure ApplicationConfig where
  name : String
  fetcher : FetcherConfig
  installer : InstallerConfig
  package_name : Option String
  pinned : Option Bool
deriving DecidableEq

/-- `Config`: the top-level configuration file structure. -/
structure Config where
  applications : List ApplicationConfig
deriving DecidableEq

/-- `UpdateCheck` (`src/types.rs`). -/
inductive UpdateCheck where
  | no
  | yes (version : String)
deriving DecidableEq

/-- `GitHubAsset`: subset of the GitHub releases API response. -/
structure GitHubAsset where
  name : String
  browser_download_url : String
deriving DecidableEq

/-- `GitHubRelease`: subset of the GitHub releases API response. -/
structure GitHubRelease where
  tag_name : String
  assets : List GitHubAsset
deriving DecidableEq

/-! ## External environment and observable events -/

/-- Observable side effects of one application's processing. -/
inductive Event where
  | dpkgQuery (pkg : String)
  | fetchCalled (version : String)
  | downloadCalled (url : String) (name : String)
  | installCalled (path : String)
  | commandRun (program : String) (args : List String)
deriving DecidableEq

/-- Log entries of the batch loop in `run_command` (`src/main.rs`): the
"Processing application" line before each entry and the "Application failed"
line on a caught error. -/
inductive BatchLog where
  | started (name : String)
  | failed (name : String) (err : String)
deriving DecidableEq

/-- The external world as the program observes it: `which` lookups, process
privileges, terminal state, subprocess outcomes, the `glob` crate's pattern
compiler, the network, and the config file I/O.  Each field models one
external collaborator of the Rust code. -/
structure Env where
  /-- `which("dpkg").is_ok()` -/
  dpkgPresent : Bool
  /-- Outcome of `Command::new("dpkg").arg("-s").arg(pkg).output()`:
  `none` is a spawn failure, otherwise (status success?, stdout lines). -/
  dpkgRun : String → Option (Bool × List String)
  /-- `which("sudo").is_ok()` -/
  sudoPresent : Bool
  /-- `nix::unistd::getuid().is_root()` -/
  isRoot : Bool
  /-- `std::io::stdin().is_terminal()` -/
  stdinTerminal : Bool
  /-- Outcome of `Command::new(prog).args(args).status()`: `none` is a spawn
  failure, otherwise the exit code (`0` is success). -/
  runCommand : String → List String → Option Int
  /-- `glob::Pattern::new`: `none` on an invalid pattern, otherwise the
  compiled matcher (`Pattern::matches`). -/
  globCompile : String → Option (String → Bool)
  /-- `GitHubFetcher::latest_release`: the HTTP GET + status check + JSON
  parse for `owner`/`repo`, as one transport-level outcome. -/
  latestRelease : String → String → Except String GitHubRelease
  /-- `GitHubFetcher::download_asset` for (url, asset name): the downloaded
  local path, or a transport error. -/
  download : String → String → Except String String
  /-- `load_config`: read + YAML-parse of the configuration file. -/
  loadConfig : Except String Config
  /-- `save_config`: YAML-serialize + write of the configuration file. -/
  saveConfig : Except String Unit

/-! ## Installer capability (`src/installer/mod.rs`, `src/installer/deb.rs`) -/

/-- `check_sudo_availability` (`src/installer/mod.rs`): `Ok true` when already
root, `Ok false` when not root but sudo and a terminal are available, error
otherwise. -/
def check_sudo_availability (env : Env) : Except String Bool :=
  if env.isRoot then .ok true
  else if !env.sudoPresent then
    .error "Not running as root and sudo is not available in PATH"
  else if !env.stdinTerminal then
    .error "Not running as root and no terminal available for sudo password prompt"
  else .ok false

/-- `DebInstaller` (`src/installer/deb.rs`). -/
structure DebInstaller where
  package_name : String
  pinned : Bool
deriving DecidableEq

namespace DebInstaller

/-- `DebInstaller::new`. -/
def new (app : ApplicationConfig) : DebInstaller :=
  { package_name := app.package_name.getD app.name
    pinned := app.pinned.getD false }

/-- First line carrying a `Version:` tag: Rust
`line.strip_prefix("Version:")`. -/
def versionOfLine (l : String) : Option String :=
  match l.data with
  | 'V' :: 'e' :: 'r' :: 's' :: 'i' :: 'o' :: 'n' :: ':' :: rest =>
    some (String.mk (trimChars rest))
  | _ => none

/-- `DebInstaller::get_installed_version`: `dpkg -s <package>`; absent dpkg or
a failing query is `Ok none` ("not installed"), a spawn failure is an error;
on success the first `Version:` line (trimmed) is returned. -/
def get_installed_version (env : Env) (d : DebInstaller) :
    Except String (Option String) × List Event :=
  if !env.dpkgPresent then (.ok none, [])
  else
    match env.dpkgRun d.package_name with
    | none => (.error "Failed to run dpkg -s", [.dpkgQuery d.package_name])
    | some (ok, lines) =>
      if !ok then (.ok none, [.dpkgQuery d.package_name])
      else (.ok (lines.findSome? versionOfLine), [.dpkgQuery d.package_name])

/-- `DebInstaller::should_check_for_update`: pinned packages are skipped with
no query; otherwise "not installed" is treated as version `"0.0.0"`. -/
def should_check_for_update (env : Env) (d : DebInstaller) :
    Except String UpdateCheck × List Event :=
  if d.pinned then (.ok .no, [])
  else
    match get_installed_version env d with
    | (.error e, ev) => (.error e, ev)
    | (.ok (some v), ev) => (.ok (.yes v), ev)
    | (.ok none, ev) => (.ok (.yes "0.0.0"), ev)

/-- `DebInstaller::run_install_command`: `sudo dpkg -i <file>` whenever sudo
is on the search path, otherwise `dpkg -i <file>`; a spawn failure or a
non-zero exit status is an error. -/
def run_install_command (env : Env) (filePath : String) :
    Except String Unit × List Event :=
  let cmd : String × List String :=
    if env.sudoPresent then ("sudo", ["dpkg", "-i"]) else ("dpkg", ["-i"])
  let args := cmd.2 ++ [filePath]
  match env.runCommand cmd.1 args with
  | none => (.error "Failed to run installer command", [.commandRun cmd.1 args])
  | some code =>
    if code == 0 then (.ok (), [.commandRun cmd.1 args])
    else (.error ("Installer command failed with status " ++ toString code),
      [.commandRun cmd.1 args])

/-- `DebInstaller::install`. -/
def install (env : Env) (_d : DebInstaller) (filePath : String) :
    Except String Unit × List Event :=
  run_install_command env filePath

end DebInstaller

/-- `create_installer` (`src/installer/mod.rs`): only the `"deb"` kind exists. -/
def create_installer (cfg : InstallerConfig) (app : ApplicationConfig) :
    Except String DebInstaller :=
  if cfg.type == "deb" then .ok (DebInstaller.new app)
  else .error ("Unknown installer type: " ++ cfg.type)

/-! ## Fetcher capability (`src/fetcher/mod.rs`, `src/fetcher/github.rs`) -/

/-- `GitHubFetcher` (the compiled glob matcher is a predicate supplied by the
`glob` crate through `Env.globCompile`; the reqwest client is carried by
`Env`). -/
structure GitHubFetcherS where
  owner : String
  repo : String
  file_pattern : String → Bool
  app_name : String

namespace GitHubFetcher

/-- `GitHubFetcher::new`: requires the `repo` field, split once on `'/'` into
owner and repo; compiles `file_pattern` (default `"*"`); each failure is a
construction-time error with the source's message. -/
def new (env : Env) (cfg : FetcherConfig) (app : ApplicationConfig) :
    Except String GitHubFetcherS :=
  match cfg.repo with
  | none => .error "GitHub fetcher requires `repo` field"
  | some repoStr =>
    match splitOnce repoStr '/' with
    | none => .error "GitHub repo must be in form `owner/repo`"
    | some (owner, repo) =>
      let patternStr := cfg.file_pattern.getD "*"
      match env.globCompile patternStr with
      | none => .error ("Invalid glob pattern: " ++ patternStr)
      | some pat =>
        .ok { owner := owner, repo := repo, file_pattern := pat
              app_name := app.name }

/-- `GitHubFetcher::fetch_if_newer`: query the latest release, normalize both
versions, return `none` when the remote is not newer; otherwise select the
first asset matching the glob (`none` again when no asset matches) and
download it. -/
def fetch_if_newer (env : Env) (f : GitHubFetcherS) (current : String) :
    Except String (Option String) × List Event :=
  match env.latestRelease f.owner f.repo with
  | .error e => (.error e, [])
  | .ok release =>
    let latest := normalize_version release.tag_name
    let cur := normalize_version current
    if !is_newer cur latest then (.ok none, [])
    else
      match release.assets.find? (fun a => f.file_pattern a.name) with
      | none => (.ok none, [])
      | some a =>
        match env.download a.browser_download_url a.name with
        | .error e =>
          (.error e, [.downloadCalled a.browser_download_url a.name])
        | .ok path =>
          (.ok (some path), [.downloadCalled a.browser_download_url a.name])

end GitHubFetcher

/-- `create_fetcher` (`src/fetcher/mod.rs`): only the `"github"` kind exists. -/
def create_fetcher (env : Env) (cfg : FetcherConfig) (app : ApplicationConfig) :
    Except String GitHubFetcherS :=
  if cfg.type == "github" then GitHubFetcher.new env cfg app
  else .error ("Unknown fetcher type: " ++ cfg.type)

/-! ## Orchestration (`src/main.rs`) -/

/-- `process_application`: construct installer and fetcher, consult
`should_check_for_update`, fetch if told to, and install unless `dry_run`;
after a successful non-dry-run install of a `"deb"` application whose
`package_name` is unset, set it to the application name and raise the
needs-save flag.  Returns the (possibly mutated) application together with
the new flag, or the first error; the event list records the observable
calls. -/
def process_application (env : Env) (app : ApplicationConfig) (dryRun : Bool)
    (configUpdated : Bool) :
    Except String (ApplicationConfig × Bool) × List Event :=
  match create_installer app.installer app with
  | .error e => (.error e, [])
  | .ok inst =>
    match create_fetcher env app.fetcher app with
    | .error e => (.error e, [])
    | .ok f =>
      match DebInstaller.should_check_for_update env inst with
      | (.error e, ev) => (.error e, ev)
      | (.ok .no, ev) => (.ok (app, configUpdated), ev)
      | (.ok (.yes v), ev) =>
        match GitHubFetcher.fetch_if_newer env f v with
        | (.error e, fev) => (.error e, ev ++ .fetchCalled v :: fev)
        | (.ok none, fev) => (.ok (app, configUpdated), ev ++ .fetchCalled v :: fev)
        | (.ok (some path), fev) =>
          if dryRun then
            (.ok (app, configUpdated), ev ++ .fetchCalled v :: fev)
          else
            match DebInstaller.install env inst path with
            | (.error e, iev) =>
              (.error e, ev ++ .fetchCalled v :: fev ++ .installCalled path :: iev)
            | (.ok (), iev) =>
              if app.installer.type == "deb" && app.package_name == none then
                (.ok ({ app with package_name := some app.name }, true),
                  ev ++ .fetchCalled v :: fev ++ .installCalled path :: iev)
              else
                (.ok (app, configUpdated),
                  ev ++ .fetchCalled v :: fev ++ .installCalled path :: iev)

/-- The per-application loop of `run_command`: processes every application in
order, logging and swallowing each application's error, threading the
needs-save flag; returns the processed applications, the final flag and the
batch log. -/
def runBatch (env : Env) (dryRun : Bool) :
    List ApplicationConfig → Bool → List ApplicationConfig × Bool × List BatchLog
  | [], u => ([], u, [])
  | app :: rest, u =>
    match process_application env app dryRun u with
    | (.ok (app2, u2), _) =>
      let r := runBatch env dryRun rest u2
      (app2 :: r.1, r.2.1, .started app.name :: r.2.2)
    | (.error e, _) =>
      let r := runBatch env dryRun rest u
      (app :: r.1, r.2.1, .started app.name :: .failed app.name e :: r.2.2)

/-- `run_command`: load the configuration (propagating load errors), run the
per-application loop, and save the configuration exactly when some
application raised the needs-save flag (propagating a save error).  The
process exit code is non-zero exactly when this returns an error. -/
def run_command (env : Env) (dryRun : Bool) : Except String Unit :=
  match env.loadConfig with
  | .error e => .error e
  | .ok cfg =>
    let r := runBatch env dryRun cfg.applications false
    if r.2.1 then env.saveConfig else .ok ()

/-- Names of the applications whose processing was started, in log order. -/
def startedNames (log : List BatchLog) : List String :=
  log.filterMap fun
    | .started n => some n
    | .failed _ _ => none

/-! ## Helper lemmas: version comparison -/

namespace GitHubFetcher

theorem getD_replicate_zero : ∀ (k i : Nat), (List.replicate k (0 : Nat)).getD i 0 = 0
  | 0, _ => by simp [List.replicate]
  | _ + 1, 0 => by simp [List.replicate]
  | k + 1, i + 1 => by
    simp [List.replicate, getD_replicate_zero k i]

theorem length_padTo (xs : List Nat) (n : Nat) (h : xs.length ≤ n) :
    (padTo xs n).length = n := by
  simp [padTo]
  omega

theorem padTo_cons (x : Nat) (xs : List Nat) (n : Nat) :
    padTo (x :: xs) n = x :: padTo xs (n - 1) := by
  have h : n - (xs.length + 1) = n - 1 - xs.length := by omega
  simp [padTo, h]

theorem getD_padTo : ∀ (xs : List Nat) (n i : Nat),
    (padTo xs n).getD i 0 = xs.getD i 0
  | [], n, i => by simp [padTo, getD_replicate_zero]
  | x :: xs, n, 0 => by simp [padTo_cons]
  | x :: xs, n, i + 1 => by
    simpa [padTo_cons] using getD_padTo xs (n - 1) i

/-- The comparison loop returns `true` exactly when the first index where the
two equal-length part vectors differ has the remote component exceeding the
local one. -/
theorem cmpParts_iff : ∀ (l r : List Nat), l.length = r.length →
    (cmpParts l r = true ↔
      ∃ i, i < r.length ∧ r.getD i 0 > l.getD i 0 ∧
        ∀ j, j < i → r.getD j 0 = l.getD j 0)
  | [], [], _ => by simp [cmpParts]
  | [], r :: rs, h => by simp at h
  | l :: ls, [], h => by simp at h
  | a :: as, b :: bs, h => by
    have hlen : as.length = bs.length := by simpa using h
    by_cases hgt : b > a
    · simp only [cmpParts, if_pos hgt]
      constructor
      · intro _
        exact ⟨0, by simp, by simpa using hgt, fun j hj => absurd hj (Nat.not_lt_zero j)⟩
      · intro _; trivial
    · by_cases hlt : b < a
      · simp only [cmpParts, if_neg hgt, if_pos hlt]
        constructor
        · intro hfalse; cases hfalse
        · rintro ⟨i, hi, hgd, hprev⟩
          cases i with
          | zero => simp at hgd; omega
          | succ k =>
            have h0 := hprev 0 (Nat.succ_pos k)
            simp at h0
            omega
      · have heq : a = b := by omega
        simp only [cmpParts, if_neg hgt, if_neg hlt]
        rw [cmpParts_iff as bs hlen]
        constructor
        · rintro ⟨i, hi, hgd, hprev⟩
          refine ⟨i + 1, by simpa using Nat.succ_lt_succ hi, by simpa using hgd, ?_⟩
          intro j hj
          cases j with
          | zero => simpa using heq.symm
          | succ k => simpa using hprev k (Nat.lt_of_succ_lt_succ hj)
        · rintro ⟨i, hi, hgd, hprev⟩
          cases i with
          | zero => simp at hgd; omega
          | succ k =>
            refine ⟨k, by simpa using Nat.lt_of_succ_lt_succ hi, by simpa using hgd, ?_⟩
            intro j hj
            simpa using hprev (j + 1) (Nat.succ_lt_succ hj)

/-- Against an all-zero local vector of equal length, the loop returns `true`
exactly when some remote component is non-zero. -/
theorem cmpParts_allzero : ∀ (l r : List Nat), (∀ x ∈ l, x = 0) →
    l.length = r.length → (cmpParts l r = true ↔ ∃ k ∈ r, k ≠ 0)
  | [], [], _, _ => by simp [cmpParts]
  | [], r :: rs, _, h => by simp at h
  | l :: ls, [], _, h => by simp at h
  | a :: as, b :: bs, hz, h => by
    have ha : a = 0 := hz a (List.mem_cons_self a as)
    have hlen : as.length = bs.length := by simpa using h
    have hzs : ∀ x ∈ as, x = 0 := fun x hx => hz x (List.mem_cons_of_mem a hx)
    subst ha
    by_cases hb : b > 0
    · simp only [cmpParts, if_pos hb]
      constructor
      · intro _
        exact ⟨b, List.mem_cons_self b bs, by omega⟩
      · intro _; trivial
    · have hb0 : b = 0 := by omega
      subst hb0
      simp only [cmpParts, gt_iff_lt, lt_irrefl, if_false]
      rw [cmpParts_allzero as bs hzs hlen]
      constructor
      · rintro ⟨k, hk, hk0⟩
        exact ⟨k, List.mem_cons_of_mem 0 hk, hk0⟩
      · rintro ⟨k, hk, hk0⟩
        rcases List.mem_cons.mp hk with h0 | hmem
        · omega
        · exact ⟨k, hmem, hk0⟩

/-- `is_newer "0.0.0" r` holds exactly when some numeric component of `r` is
non-zero. -/
theorem is_newer_zero (r : String) :
    is_newer "0.0.0" r = true ↔ ∃ k ∈ parse r, k ≠ 0 := by
  have hp : parse "0.0.0" = [0, 0, 0] := by decide
  unfold is_newer
  rw [hp]
  set n := max ([0, 0, 0] : List Nat).length (parse r).length with hn
  have h3 : ([0, 0, 0] : List Nat).length ≤ n := le_max_left _ _
  have hr : (parse r).length ≤ n := le_max_right _ _
  have hz : ∀ x ∈ padTo [0, 0, 0] n, x = 0 := by
    intro x hx
    rcases List.mem_append.mp hx with hm | hm
    · simp at hm; omega
    · exact List.eq_of_mem_replicate hm
  have hlen : (padTo [0, 0, 0] n).length = (padTo (parse r) n).length := by
    rw [length_padTo _ _ h3, length_padTo _ _ hr]
  rw [cmpParts_allzero _ _ hz hlen]
  constructor
  · rintro ⟨k, hk, hk0⟩
    rcases List.mem_append.mp hk with hm | hm
    · exact ⟨k, hm, hk0⟩
    · exact absurd (List.eq_of_mem_replicate hm) hk0
  · rintro ⟨k, hk, hk0⟩
    exact ⟨k, List.mem_append.mpr (Or.inl hk), hk0⟩

end GitHubFetcher

/-! ## Helper lemmas: tag normalization -/

namespace GitHubFetcher

theorem findCapture_of_no_digit : ∀ (cs : List Char),
    (∀ c ∈ cs, c.isDigit = false) → findCapture cs = none
  | [], _ => rfl
  | c :: rest, h => by
    have hc : c.isDigit = false := h c (List.mem_cons_self c rest)
    have hrest : ∀ x ∈ rest, x.isDigit = false :=
      fun x hx => h x (List.mem_cons_of_mem c hx)
    simp only [findCapture, hc, Bool.false_eq_true, if_false]
    by_cases hv : c = 'v'
    · rw [if_pos hv]
      cases rest with
      | nil => rfl
      | cons d rest2 =>
        have hd : d.isDigit = false := hrest d (List.mem_cons_self d rest2)
        simp only [hd, Bool.false_eq_true, if_false]
        exact findCapture_of_no_digit (d :: rest2) hrest
    · rw [if_neg hv]
      exact findCapture_of_no_digit rest hrest

theorem findCapture_at_first_digit : ∀ (pre : List Char) (d : Char) (post : List Char),
    (∀ c ∈ pre, c.isDigit = false) → d.isDigit = true →
    findCapture (pre ++ d :: post) = some (d :: post.takeWhile isVersChar)
  | [], d, post, _, hd => by
    simp [findCapture, hd]
  | p :: pre, d, post, h, hd => by
    have hp : p.isDigit = false := h p (List.mem_cons_self p pre)
    have hpre : ∀ c ∈ pre, c.isDigit = false :=
      fun c hc => h c (List.mem_cons_of_mem p hc)
    simp only [List.cons_append, findCapture, hp, Bool.false_eq_true, if_false]
    by_cases hv : p = 'v'
    · rw [if_pos hv]
      cases pre with
      | nil =>
        simp [hd]
      | cons q pre' =>
        have hq : q.isDigit = false := hpre q (List.mem_cons_self q pre')
        show (if q.isDigit = true then
            some (q :: (pre' ++ d :: post).takeWhile isVersChar)
          else findCapture (q :: pre' ++ d :: post))
          = some (d :: post.takeWhile isVersChar)
        rw [hq]
        simp only [Bool.false_eq_true, if_false]
        exact findCapture_at_first_digit (q :: pre') d post hpre hd
    · rw [if_neg hv]
      exact findCapture_at_first_digit pre d post hpre hd

end GitHubFetcher

/-- Modelled from the spec's words, for refinement comparison with the
source-embedded `GitHubFetcher.normalize_version` only: strip an optional
leading `v`, then take the longest prefix matching `[0-9][0-9A-Za-z.\-+]*`;
when the (stripped) tag has no digit-leading prefix, return the tag
unchanged. -/
def specNormalize (tag : String) : String :=
  let t := match tag.data with
    | 'v' :: rest => rest
    | cs => cs
  match t with
  | [] => tag
  | c :: rest =>
    if c.isDigit then String.mk (c :: rest.takeWhile isVersChar) else tag

/-! ## Helper lemmas: first-match selection -/

theorem find?_first_characterization {α : Type} (p : α → Bool) :
    ∀ (l : List α) (a : α), l.find? p = some a →
      p a = true ∧ ∃ i, ∃ hi : i < l.length, l.get ⟨i, hi⟩ = a ∧
        ∀ j, ∀ hj : j < l.length, j < i → p (l.get ⟨j, hj⟩) = false
  | [], a, h => by simp at h
  | x :: xs, a, h => by
    by_cases hx : p x
    · have hax : a = x := by
        rw [List.find?_cons_of_pos _ hx] at h
        exact (Option.some.injEq _ _ ▸ h).symm
      subst hax
      exact ⟨hx, 0, Nat.succ_pos _, rfl, fun j hj hj0 => absurd hj0 (Nat.not_lt_zero j)⟩
    · rw [List.find?_cons_of_neg _ hx] at h
      obtain ⟨hpa, i, hi, hget, hprev⟩ := find?_first_characterization p xs a h
      refine ⟨hpa, i + 1, Nat.succ_lt_succ hi, hget, ?_⟩
      intro j hj hji
      cases j with
      | zero => simpa using hx
      | succ k =>
        exact hprev k (Nat.lt_of_succ_lt_succ hj) (Nat.lt_of_succ_lt_succ hji)

/-! ## Concrete environments and configurations used by witnesses -/

/-- A neutral environment: no dpkg, no sudo, running as root, no terminal,
subprocesses succeed, every glob compiles to a match-all pattern, the network
is unreachable, the config file is empty and saving succeeds. -/
def envBase : Env :=
  { dpkgPresent := false
    dpkgRun := fun _ => none
    sudoPresent := false
    isRoot := true
    stdinTerminal := false
    runCommand := fun _ _ => some 0
    globCompile := fun _ => some (fun _ => true)
    latestRelease := fun _ _ => .error "network unavailable"
    download := fun _ _ => .error "network unavailable"
    loadConfig := .ok { applications := [] }
    saveConfig := .ok () }

/-! ## Helper lemmas: event traces -/

theorem get_installed_version_events (env : Env) (d : DebInstaller) :
    (DebInstaller.get_installed_version env d).2 = []
    ∨ (DebInstaller.get_installed_version env d).2 = [Event.dpkgQuery d.package_name] := by
  unfold DebInstaller.get_installed_version
  split
  · left; rfl
  · split
    · right; rfl
    · split
      · right; rfl
      · right; rfl

theorem should_check_events (env : Env) (d : DebInstaller) :
    (DebInstaller.should_check_for_update env d).2 = []
    ∨ (DebInstaller.should_check_for_update env d).2 = [Event.dpkgQuery d.package_name] := by
  by_cases hp : d.pinned = true
  · left; simp [DebInstaller.should_check_for_update, hp]
  · have hp' : d.pinned = false := by revert hp; cases d.pinned <;> simp
    have hev := get_installed_version_events env d
    rcases hgi : DebInstaller.get_installed_version env d with ⟨res, ev⟩
    rw [hgi] at hev
    rcases res with e | ov
    · simpa [DebInstaller.should_check_for_update, hp', hgi] using hev
    · rcases ov with _ | v
      · simpa [DebInstaller.should_check_for_update, hp', hgi] using hev
      · simpa [DebInstaller.should_check_for_update, hp', hgi] using hev

theorem fetch_events (env : Env) (f : GitHubFetcherS) (v : String) :
    (GitHubFetcher.fetch_if_newer env f v).2 = []
    ∨ ∃ url nm, (GitHubFetcher.fetch_if_newer env f v).2 = [Event.downloadCalled url nm] := by
  unfold GitHubFetcher.fetch_if_newer
  rcases hlr : env.latestRelease f.owner f.repo with e | rel
  · left; rfl
  · simp only []
    split
    · left; rfl
    · rcases hf : rel.assets.find? (fun a => f.file_pattern a.name) with _ | a
      · left; simp [hf]
      · simp only [hf]
        rcases hd : env.download a.browser_download_url a.name with e2 | p
        · right; exact ⟨a.browser_download_url, a.name, by simp [hd]⟩
        · right; exact ⟨a.browser_download_url, a.name, by simp [hd]⟩

theorem no_install_event_in_check (env : Env) (d : DebInstaller) (p : String) :
    Event.installCalled p ∉ (DebInstaller.should_check_for_update env d).2 := by
  rcases should_check_events env d with h | h <;> rw [h] <;> simp

theorem no_install_event_in_fetch (env : Env) (f : GitHubFetcherS) (v p : String) :
    Event.installCalled p ∉ (GitHubFetcher.fetch_if_newer env f v).2 := by
  rcases fetch_events env f v with h | ⟨u, n, h⟩ <;> rw [h] <;> simp

/-! ## Claim theorems -/

/-- C4: for every pair of version strings, `is_newer` splits both on `.`,
keeps the numeric segments, right-pads the shorter part vector with zeros to
equal length and compares component-wise: it returns `true` exactly when the
first differing component has remote exceeding local (and `false` when all
components are equal); moreover `is_newer "1.2.3" "1.3.0" = true`,
`is_newer "1.3.0" "1.2.3" = false`, `is_newer "1.2" "1.2.0" = false` and
`is_newer "1.2.3" "1.2.3" = false`. -/
theorem is_newer_first_difference :
    (∀ lo re : String,
      GitHubFetcher.is_newer lo re = true ↔
        ∃ i, i < max (GitHubFetcher.parse lo).length (GitHubFetcher.parse re).length ∧
          (GitHubFetcher.padTo (GitHubFetcher.parse re)
              (max (GitHubFetcher.parse lo).length (GitHubFetcher.parse re).length)).getD i 0
            > (GitHubFetcher.padTo (GitHubFetcher.parse lo)
              (max (GitHubFetcher.parse lo).length (GitHubFetcher.parse re).length)).getD i 0 ∧
          ∀ j, j < i →
            (GitHubFetcher.padTo (GitHubFetcher.parse re)
              (max (GitHubFetcher.parse lo).length (GitHubFetcher.parse re).length)).getD j 0
            = (GitHubFetcher.padTo (GitHubFetcher.parse lo)
              (max (GitHubFetcher.parse lo).length (GitHubFetcher.parse re).length)).getD j 0)
    ∧ GitHubFetcher.is_newer "1.2.3" "1.3.0" = true
    ∧ GitHubFetcher.is_newer "1.3.0" "1.2.3" = false
    ∧ GitHubFetcher.is_newer "1.2" "1.2.0" = false
    ∧ GitHubFetcher.is_newer "1.2.3" "1.2.3" = false := by
  refine ⟨?_, by decide, by decide, by decide, by decide⟩
  intro lo re
  have hL : (GitHubFetcher.padTo (GitHubFetcher.parse lo)
      (max (GitHubFetcher.parse lo).length (GitHubFetcher.parse re).length)).length
      = max (GitHubFetcher.parse lo).length (GitHubFetcher.parse re).length :=
    GitHubFetcher.length_padTo _ _ (le_max_left _ _)
  have hR : (GitHubFetcher.padTo (GitHubFetcher.parse re)
      (max (GitHubFetcher.parse lo).length (GitHubFetcher.parse re).length)).length
      = max (GitHubFetcher.parse lo).length (GitHubFetcher.parse re).length :=
    GitHubFetcher.length_padTo _ _ (le_max_right _ _)
  have h := GitHubFetcher.cmpParts_iff
    (GitHubFetcher.padTo (GitHubFetcher.parse lo)
      (max (GitHubFetcher.parse lo).length (GitHubFetcher.parse re).length))
    (GitHubFetcher.padTo (GitHubFetcher.parse re)
      (max (GitHubFetcher.parse lo).length (GitHubFetcher.parse re).length))
    (by rw [hL, hR])
  rw [hR] at h
  exact h

/-- C4 witness: the characterization applied at the concrete pair
`("9.9", "10.0")`. -/
theorem is_newer_first_difference_witness :
    GitHubFetcher.is_newer "9.9" "10.0" = true :=
  (is_newer_first_difference.1 "9.9" "10.0").mpr
    ⟨0, by decide, by decide, fun j hj => absurd hj (Nat.not_lt_zero j)⟩

/-- C5 counterexample: on the tag `"release-1.2.3"` the source's
`normalize_version` returns the mid-string match `"1.2.3"`, which is not a
prefix of the tag, while the claimed prefix-only rule (`specNormalize`,
modelled from the spec's words) returns the tag unchanged. -/
theorem normalize_version_mid_string_counterexample :
    GitHubFetcher.normalize_version "release-1.2.3" = "1.2.3"
    ∧ specNormalize "release-1.2.3" = "release-1.2.3"
    ∧ ("1.2.3".data.isPrefixOf "release-1.2.3".data) = false := by
  refine ⟨by decide, by decide, by decide⟩

/-- C5 (amended): `normalize_version` never fails; on a tag containing no
digit it returns the tag unchanged, and otherwise it returns the longest
`[0-9A-Za-z.\-+]` run starting at the tag's first digit (an optional `v`
immediately before that digit is stripped, so for a tag that starts with an
optional `v` followed by a digit this is the claimed digit-leading longest
prefix); `normalize_version "v1.2.3" = "1.2.3"` and
`normalize_version "nightly" = "nightly"`. -/
theorem normalize_version_characterization :
    ∀ tag : String,
      ((∀ c ∈ tag.data, c.isDigit = false) → GitHubFetcher.normalize_version tag = tag)
      ∧ (∀ pre d post, tag.data = pre ++ d :: post → (∀ c ∈ pre, c.isDigit = false) →
          d.isDigit = true →
          GitHubFetcher.normalize_version tag = String.mk (d :: post.takeWhile isVersChar))
      ∧ GitHubFetcher.normalize_version "v1.2.3" = "1.2.3"
      ∧ GitHubFetcher.normalize_version "nightly" = "nightly" := by
  intro tag
  refine ⟨?_, ?_, by decide, by decide⟩
  · intro h
    unfold GitHubFetcher.normalize_version
    rw [GitHubFetcher.findCapture_of_no_digit tag.data h]
  · intro pre d post htag hpre hd
    unfold GitHubFetcher.normalize_version
    rw [htag, GitHubFetcher.findCapture_at_first_digit pre d post hpre hd]

/-- C5 witness: the characterization applied at the concrete tags `"abc"`
(no digit) and `"rel-2.0"` (first digit mid-string). -/
theorem normalize_version_characterization_witness :
    GitHubFetcher.normalize_version "abc" = "abc"
    ∧ GitHubFetcher.normalize_version "rel-2.0" = "2.0" := by
  refine ⟨(normalize_version_characterization "abc").1 (by decide), ?_⟩
  have h := (normalize_version_characterization "rel-2.0").2.1
    ['r', 'e', 'l', '-'] '2' ['.', '0'] (by decide) (by decide) (by decide)
  exact h.trans (by decide)

/-- Environment for the C3 counterexample: dpkg is present but the package
query fails (package not installed), and the upstream's latest release is
tagged `"0.0.0"` with a matching asset available. -/
def envC3 : Env :=
  { envBase with
    dpkgPresent := true
    dpkgRun := fun _ => some (false, [])
    latestRelease := fun _ _ => .ok
      { tag_name := "0.0.0"
        assets := [{ name := "hello.deb"
                     browser_download_url := "https://example.invalid/hello.deb" }] } }

/-- Fetcher instance for the C3 counterexample (match-all compiled glob). -/
def fetchC3 : GitHubFetcherS :=
  { owner := "acme", repo := "hello", file_pattern := fun _ => true, app_name := "hello" }

/-- C3 counterexample: with dpkg's query failing, `should_check_for_update`
does return `CheckAgainst "0.0.0"`, but the upstream release tagged `"0.0.0"`
is not treated as newer: `fetch_if_newer` returns `Ok None` and downloads
nothing, refuting "for every upstream release ... a fetch/download is
attempted". -/
theorem zero_version_release_not_fetched :
    DebInstaller.should_check_for_update envC3 { package_name := "hello", pinned := false }
      = (.ok (.yes "0.0.0"), [.dpkgQuery "hello"])
    ∧ GitHubFetcher.fetch_if_newer envC3 fetchC3 "0.0.0" = (.ok none, []) := by
  constructor <;> rfl

/-- C3 (amended): when the Deb installer cannot determine an installed
version (dpkg absent, or the query fails), `should_check_for_update` returns
`CheckAgainst "0.0.0"`; the fetcher then treats an upstream release as newer
than `"0.0.0"` exactly when its normalized tag has some non-zero numeric
component (so releases normalizing to all-zero or non-numeric versions, such
as `"0.0.0"` or `"nightly"`, are not fetched). -/
theorem zero_version_check_and_newer_iff :
    (∀ (env : Env) (d : DebInstaller), d.pinned = false → env.dpkgPresent = false →
      DebInstaller.should_check_for_update env d = (.ok (.yes "0.0.0"), []))
    ∧ (∀ (env : Env) (d : DebInstaller) (lines : List String), d.pinned = false →
        env.dpkgPresent = true → env.dpkgRun d.package_name = some (false, lines) →
        DebInstaller.should_check_for_update env d
          = (.ok (.yes "0.0.0"), [.dpkgQuery d.package_name]))
    ∧ (∀ tag : String,
        GitHubFetcher.is_newer (GitHubFetcher.normalize_version "0.0.0")
            (GitHubFetcher.normalize_version tag) = true
          ↔ ∃ k ∈ GitHubFetcher.parse (GitHubFetcher.normalize_version tag), k ≠ 0) := by
  refine ⟨?_, ?_, ?_⟩
  · intro env d hp hdp
    simp [DebInstaller.should_check_for_update, DebInstaller.get_installed_version, hp, hdp]
  · intro env d lines hp hdp hrun
    simp [DebInstaller.should_check_for_update, DebInstaller.get_installed_version,
      hp, hdp, hrun]
  · intro tag
    have h0 : GitHubFetcher.normalize_version "0.0.0" = "0.0.0" := by decide
    rw [h0]
    exact GitHubFetcher.is_newer_zero _

/-- C3 witness: the amended claim applied at an environment without dpkg and
at the concrete release tag `"v1.0.0"`. -/
theorem zero_version_check_and_newer_iff_witness :
    DebInstaller.should_check_for_update envBase { package_name := "x", pinned := false }
      = (.ok (.yes "0.0.0"), [])
    ∧ GitHubFetcher.is_newer (GitHubFetcher.normalize_version "0.0.0")
        (GitHubFetcher.normalize_version "v1.0.0") = true := by
  constructor
  · exact zero_version_check_and_newer_iff.1 envBase _ rfl rfl
  · exact (zero_version_check_and_newer_iff.2.2 "v1.0.0").mpr ⟨1, by decide, by decide⟩

/-- Environment for C1: not root, sudo on the search path, stdin not a
terminal (for example a run from a non-interactive service unit). -/
def envC1 : Env :=
  { envBase with isRoot := false, sudoPresent := true, stdinTerminal := false }

/-- Environment for C1, second divergence: already running as root with sudo
also present. -/
def envC1root : Env := { envC1 with isRoot := true }

/-- C1: the Deb installer's install ignores the claimed elevation policy.
Where the policy demands a fast "cannot elevate" failure (not root, sudo
present, no terminal), `run_install_command` happily invokes
`sudo dpkg -i` — exactly the command that can hang on a password prompt —
while the (never-called) `check_sudo_availability` helper implementing the
claimed policy errs; and where the policy demands running directly (already
root), it still re-invokes through sudo. -/
theorem deb_install_ignores_elevation_policy :
    DebInstaller.run_install_command envC1 "/tmp/pkg.deb"
      = (.ok (), [.commandRun "sudo" ["dpkg", "-i", "/tmp/pkg.deb"]])
    ∧ check_sudo_availability envC1
      = .error "Not running as root and no terminal available for sudo password prompt"
    ∧ DebInstaller.run_install_command envC1root "/tmp/pkg.deb"
      = (.ok (), [.commandRun "sudo" ["dpkg", "-i", "/tmp/pkg.deb"]])
    ∧ check_sudo_availability envC1root = .ok true := by
  exact ⟨rfl, rfl, rfl, rfl⟩

/-- Application for the C2 counterexample: a well-formed deb/github entry
whose `package_name` is unset, so a successful install infers it and raises
the needs-save flag. -/
def appC2 : ApplicationConfig :=
  { name := "hello"
    fetcher := { type := "github", repo := some "acme/hello", file_pattern := some "*.deb" }
    installer := { type := "deb" }
    package_name := none
    pinned := none }

/-- Environment for the C2 counterexample: every per-application step
succeeds (package not installed, newer release found, download and install
succeed), but writing the config file back fails. -/
def envC2 : Env :=
  { envBase with
    dpkgPresent := true
    dpkgRun := fun _ => some (false, [])
    sudoPresent := true
    latestRelease := fun _ _ => .ok
      { tag_name := "v1.0.0"
        assets := [{ name := "hello_1.0.0_amd64.deb"
                     browser_download_url := "https://example.invalid/hello.deb" }] }
    download := fun _ _ => .ok "/tmp/autopkg-hello-hello_1.0.0_amd64.deb"
    loadConfig := .ok { applications := [appC2] }
    saveConfig := .error "Failed to write config file to /etc/autopkg.yml" }

/-- C2 counterexample: the per-application loop completes with its only
application fully succeeding (the batch log records no failure), yet the run
subcommand returns an error — a non-zero exit caused by the post-loop config
save, i.e. by an error occurring after, not before, the per-application
loop. -/
theorem run_command_nonzero_after_successful_loop :
    run_command envC2 false = .error "Failed to write config file to /etc/autopkg.yml"
    ∧ (runBatch envC2 false [appC2] false).2.2 = [.started "hello"] := by
  constructor <;> rfl

/-- C2 (amended): the run subcommand exits non-zero exactly when the config
load fails, or when some application raised the needs-save flag and the
post-loop config save fails; the per-application outcomes themselves
(including failures) never produce a non-zero exit. -/
theorem run_command_exit_characterization :
    ∀ (env : Env) (dryRun : Bool),
      (∀ e, env.loadConfig = .error e → run_command env dryRun = .error e)
      ∧ ∀ cfg, env.loadConfig = .ok cfg →
          (run_command env dryRun = .ok ()
            ↔ ((runBatch env dryRun cfg.applications false).2.1 = true →
                env.saveConfig = .ok ())) := by
  intro env dryRun
  constructor
  · intro e he
    simp [run_command, he]
  · intro cfg hc
    simp only [run_command, hc]
    cases hflag : (runBatch env dryRun cfg.applications false).2.1 with
    | false => simp [hflag]
    | true => simp [hflag]

/-- C2 witness: the characterization applied at a concrete environment whose
config loads (empty application list), where the run exits successfully. -/
theorem run_command_exit_characterization_witness :
    run_command envBase false = .ok () := by
  have h := (run_command_exit_characterization envBase false).2 { applications := [] } rfl
  exact h.mpr (fun hflag => absurd hflag (by decide))

/-- C6: for every environment (hence every assignment of per-application
outcomes, including errors), the batch loop starts processing of every
application in declared order and never propagates an application's error:
the log's started entries are exactly the application names in order, and
the loop always returns a full list of applications. -/
theorem batch_processes_every_application :
    ∀ (env : Env) (dryRun : Bool) (apps : List ApplicationConfig) (u : Bool),
      startedNames (runBatch env dryRun apps u).2.2 = apps.map ApplicationConfig.name
      ∧ (runBatch env dryRun apps u).1.length = apps.length := by
  intro env dryRun apps
  induction apps with
  | nil => intro u; exact ⟨rfl, rfl⟩
  | cons app rest ih =>
    intro u
    simp only [runBatch]
    rcases hp : process_application env app dryRun u with ⟨res, ev⟩
    rcases res with e | ⟨app2, u2⟩
    · have h := ih u
      simp only [hp]
      constructor
      · simpa [startedNames] using h.1
      · simpa using h.2
    · have h := ih u2
      simp only [hp]
      constructor
      · simpa [startedNames] using h.1
      · simpa using h.2

/-- A pinned deb/github application used by witnesses. -/
def appPinned : ApplicationConfig :=
  { name := "pinned-app"
    fetcher := { type := "github", repo := some "acme/pinned", file_pattern := none }
    installer := { type := "deb" }
    package_name := none
    pinned := some true }

/-- C7: a pinned package's `should_check_for_update` returns Skip in every
environment (independent of any installed version) with no package query
performed, and during the processing of an application whose spec has
`pinned == true` the fetcher's `fetch_if_newer` is never invoked. -/
theorem pinned_skips_check_and_fetch :
    (∀ (env : Env) (d : DebInstaller), d.pinned = true →
      DebInstaller.should_check_for_update env d = (.ok .no, []))
    ∧ ∀ (env : Env) (app : ApplicationConfig) (dryRun u : Bool) (v : String),
        app.pinned = some true →
        Event.fetchCalled v ∉ (process_application env app dryRun u).2 := by
  constructor
  · intro env d hp
    simp [DebInstaller.should_check_for_update, hp]
  · intro env app dryRun u v hp
    simp only [process_application]
    rcases hci : create_installer app.installer app with e | inst
    · simp [hci]
    · have hinst : inst = DebInstaller.new app := by
        by_cases ht : app.installer.type == "deb"
        · simp [create_installer, ht] at hci
          exact hci.symm
        · simp [create_installer, ht] at hci
      have hpin : inst.pinned = true := by
        rw [hinst]
        simp [DebInstaller.new, hp]
      have hsc : DebInstaller.should_check_for_update env inst = (.ok .no, []) := by
        simp [DebInstaller.should_check_for_update, hpin]
      simp only [hci]
      rcases hcf : create_fetcher env app.fetcher app with e | f
      · simp [hcf]
      · simp [hcf, hsc]

/-- C7 witness: the theorem applied at a concrete pinned installer and a
concrete pinned application. -/
theorem pinned_skips_check_and_fetch_witness :
    DebInstaller.should_check_for_update envBase { package_name := "x", pinned := true }
      = (.ok .no, [])
    ∧ Event.fetchCalled "0.0.0" ∉ (process_application envBase appPinned false false).2 :=
  ⟨pinned_skips_check_and_fetch.1 envBase _ rfl,
   pinned_skips_check_and_fetch.2 envBase appPinned false false "0.0.0" rfl⟩

/-- C8: in dry-run mode, for every environment (in particular every one where
a newer release is found and downloaded) and every application, the
installer's install is never invoked (no install event appears in the trace),
and on every successful outcome the application's spec and the needs-save
flag are returned unchanged. -/
theorem dry_run_no_install_no_mutation :
    ∀ (env : Env) (app : ApplicationConfig) (u : Bool),
      (∀ p, Event.installCalled p ∉ (process_application env app true u).2)
      ∧ ∀ app2 u2, (process_application env app true u).1 = .ok (app2, u2) →
          app2 = app ∧ u2 = u := by
  intro env app u
  simp only [process_application]
  rcases hci : create_installer app.installer app with e | inst
  · simp only [hci]
    exact ⟨fun p => by simp, fun app2 u2 h => by simp at h⟩
  · simp only [hci]
    rcases hcf : create_fetcher env app.fetcher app with e2 | f
    · simp only [hcf]
      exact ⟨fun p => by simp, fun app2 u2 h => by simp at h⟩
    · simp only [hcf]
      rcases hsc : DebInstaller.should_check_for_update env inst with ⟨res, ev⟩
      have hev : ∀ p, Event.installCalled p ∉ ev := by
        intro p
        have h := no_install_event_in_check env inst p
        rw [hsc] at h
        exact h
      rcases res with e3 | uc
      · simp only [hsc]
        exact ⟨hev, fun app2 u2 h => by simp at h⟩
      · rcases uc with _ | v
        · simp only [hsc]
          refine ⟨hev, fun app2 u2 h => ?_⟩
          simp at h
          exact ⟨h.1.symm, h.2.symm⟩
        · rcases hfe : GitHubFetcher.fetch_if_newer env f v with ⟨fres, fev⟩
          have hfev : ∀ p, Event.installCalled p ∉ fev := by
            intro p
            have h := no_install_event_in_fetch env f v p
            rw [hfe] at h
            exact h
          have hmemev : ∀ p, Event.installCalled p ∉ ev ++ Event.fetchCalled v :: fev := by
            intro p hmem
            rcases List.mem_append.mp hmem with h1 | h1
            · exact hev p h1
            · rcases List.mem_cons.mp h1 with h2 | h2
              · cases h2
              · exact hfev p h2
          rcases fres with e4 | op
          · simp only [hsc, hfe]
            exact ⟨hmemev, fun app2 u2 h => by simp at h⟩
          · rcases op with _ | path
            · simp only [hsc, hfe]
              refine ⟨hmemev, fun app2 u2 h => ?_⟩
              simp at h
              exact ⟨h.1.symm, h.2.symm⟩
            · simp only [hsc, hfe]
              refine ⟨hmemev, fun app2 u2 h => ?_⟩
              simp at h
              exact ⟨h.1.symm, h.2.symm⟩

/-- C8 witness: the theorem applied at a concrete environment and
application, with its success hypothesis discharged by evaluation. -/
theorem dry_run_no_install_no_mutation_witness :
    Event.installCalled "/tmp/x.deb" ∉ (process_application envBase appPinned true false).2
    ∧ (appPinned = appPinned ∧ false = false) := by
  have h := dry_run_no_install_no_mutation envBase appPinned false
  exact ⟨h.1 "/tmp/x.deb", h.2 appPinned false rfl⟩

/-- C9: when a newer release exists, `fetch_if_newer` selects the first
asset, in upstream order, whose name matches the compiled glob pattern (every
earlier asset does not match), downloading exactly that asset; and when no
asset matches it returns `Ok None` — a "no update" outcome, not an error. -/
theorem fetch_selects_first_matching_asset :
    ∀ (env : Env) (f : GitHubFetcherS) (cur : String) (rel : GitHubRelease),
      env.latestRelease f.owner f.repo = .ok rel →
      GitHubFetcher.is_newer (GitHubFetcher.normalize_version cur)
          (GitHubFetcher.normalize_version rel.tag_name) = true →
      ((∀ a ∈ rel.assets, f.file_pattern a.name = false) →
          GitHubFetcher.fetch_if_newer env f cur = (.ok none, []))
      ∧ ∀ a, rel.assets.find? (fun x => f.file_pattern x.name) = some a →
          (GitHubFetcher.fetch_if_newer env f cur =
            match env.download a.browser_download_url a.name with
            | .error e => (.error e, [.downloadCalled a.browser_download_url a.name])
            | .ok path => (.ok (some path), [.downloadCalled a.browser_download_url a.name]))
          ∧ f.file_pattern a.name = true
          ∧ ∃ i, ∃ hi : i < rel.assets.length, rel.assets.get ⟨i, hi⟩ = a
              ∧ ∀ j, ∀ hj : j < rel.assets.length, j < i →
                  f.file_pattern ((rel.assets.get ⟨j, hj⟩).name) = false := by
  intro env f cur rel hlr hnew
  have hunfold : GitHubFetcher.fetch_if_newer env f cur =
      match rel.assets.find? (fun x => f.file_pattern x.name) with
      | none => (.ok none, [])
      | some a =>
        match env.download a.browser_download_url a.name with
        | .error e => (.error e, [.downloadCalled a.browser_download_url a.name])
        | .ok path => (.ok (some path), [.downloadCalled a.browser_download_url a.name]) := by
    unfold GitHubFetcher.fetch_if_newer
    simp only [hlr, hnew, Bool.not_true, Bool.false_eq_true, if_false]
  constructor
  · intro hnone
    have hfind : rel.assets.find? (fun x => f.file_pattern x.name) = none :=
      List.find?_eq_none.mpr (fun x hx => by simp [hnone x hx])
    rw [hunfold, hfind]
  · intro a hfind
    refine ⟨by rw [hunfold, hfind], ?_, ?_⟩
    · have h := List.find?_some hfind
      simpa using h
    · obtain ⟨hpa, i, hi, hget, hprev⟩ := find?_first_characterization _ rel.assets a hfind
      exact ⟨i, hi, hget, hprev⟩

/-- Release for the C9 witness: the `"*.deb"` selection scenario with a
non-matching first asset. -/
def relC9 : GitHubRelease :=
  { tag_name := "v1.2.3"
    assets := [{ name := "app.tar.gz"
                 browser_download_url := "https://example.invalid/app.tar.gz" },
               { name := "app-1.2.3.deb"
                 browser_download_url := "https://example.invalid/app-1.2.3.deb" }] }

/-- Environment for the C9 witness. -/
def envC9 : Env :=
  { envBase with
    latestRelease := fun _ _ => .ok relC9
    download := fun _ _ => .ok "/tmp/autopkg-app-app-1.2.3.deb" }

/-- Fetcher for the C9 witness: its compiled pattern matches exactly the
`.deb` asset. -/
def fetchC9 : GitHubFetcherS :=
  { owner := "acme", repo := "app"
    file_pattern := fun s => s == "app-1.2.3.deb", app_name := "app" }

/-- C9 witness: the selection theorem applied at the concrete release whose
second asset is the first (and only) match. -/
theorem fetch_selects_first_matching_asset_witness :
    GitHubFetcher.fetch_if_newer envC9 fetchC9 "1.2.2"
      = (.ok (some "/tmp/autopkg-app-app-1.2.3.deb"),
         [.downloadCalled "https://example.invalid/app-1.2.3.deb" "app-1.2.3.deb"]) := by
  have h := (fetch_selects_first_matching_asset envC9 fetchC9 "1.2.2" relC9 rfl (by decide)).2
    { name := "app-1.2.3.deb", browser_download_url := "https://example.invalid/app-1.2.3.deb" }
    (by decide)
  exact h.1.trans (by rfl)

/-- C10: processing constructs the installer and the fetcher before
consulting `should_check_for_update`, so for a pinned deb application with an
invalid fetcher spec — unknown fetcher kind, missing `repo` for kind
`"github"`, a `repo` without a `/`, or a glob pattern rejected by the
compiler — processing fails with the corresponding configuration error
instead of skipping: pinning does not exempt an application from
fetcher-construction errors. -/
theorem invalid_fetcher_spec_fails_even_pinned :
    ∀ (env : Env) (app : ApplicationConfig) (dryRun u : Bool),
      app.pinned = some true → app.installer.type = "deb" →
      ((app.fetcher.type ≠ "github" →
          (process_application env app dryRun u).1
            = .error ("Unknown fetcher type: " ++ app.fetcher.type))
       ∧ (app.fetcher.type = "github" → app.fetcher.repo = none →
          (process_application env app dryRun u).1
            = .error "GitHub fetcher requires `repo` field")
       ∧ (∀ r, app.fetcher.type = "github" → app.fetcher.repo = some r →
          splitOnce r '/' = none →
          (process_application env app dryRun u).1
            = .error "GitHub repo must be in form `owner/repo`")
       ∧ (∀ r ow rp, app.fetcher.type = "github" → app.fetcher.repo = some r →
          splitOnce r '/' = some (ow, rp) →
          env.globCompile (app.fetcher.file_pattern.getD "*") = none →
          (process_application env app dryRun u).1
            = .error ("Invalid glob pattern: " ++ app.fetcher.file_pattern.getD "*"))) := by
  intro env app dryRun u hpin htype
  have hinst : create_installer app.installer app = .ok (DebInstaller.new app) := by
    simp [create_installer, htype]
  refine ⟨?_, ?_, ?_, ?_⟩
  · intro hne
    have hb : (app.fetcher.type == "github") = false := beq_eq_false_iff_ne.mpr hne
    have hcf : create_fetcher env app.fetcher app
        = .error ("Unknown fetcher type: " ++ app.fetcher.type) := by
      simp [create_fetcher, hb]
    simp [process_application, hinst, hcf]
  · intro hgt hrepo
    have hcf : create_fetcher env app.fetcher app
        = .error "GitHub fetcher requires `repo` field" := by
      simp [create_fetcher, GitHubFetcher.new, hgt, hrepo]
    simp [process_application, hinst, hcf]
  · intro r hgt hrepo hsplit
    have hcf : create_fetcher env app.fetcher app
        = .error "GitHub repo must be in form `owner/repo`" := by
      simp [create_fetcher, GitHubFetcher.new, hgt, hrepo, hsplit]
    simp [process_application, hinst, hcf]
  · intro r ow rp hgt hrepo hsplit hglob
    have hcf : create_fetcher env app.fetcher app
        = .error ("Invalid glob pattern: " ++ app.fetcher.file_pattern.getD "*") := by
      simp [create_fetcher, GitHubFetcher.new, hgt, hrepo, hsplit, hglob]
    simp [process_application, hinst, hcf]

/-- A pinned deb application with an unknown fetcher kind, for the C10
witness. -/
def appBadFetcher : ApplicationConfig :=
  { name := "bad"
    fetcher := { type := "svn", repo := none, file_pattern := none }
    installer := { type := "deb" }
    package_name := none
    pinned := some true }

/-- C10 witness: the theorem applied at a concrete pinned application whose
fetcher kind is unknown. -/
theorem invalid_fetcher_spec_fails_even_pinned_witness :
    (process_application envBase appBadFetcher false false).1
      = .error ("Unknown fetcher type: " ++ appBadFetcher.fetcher.type) :=
  (invalid_fetcher_spec_fails_even_pinned envBase appBadFetcher false false rfl rfl).1
    (by decide)
